import Mathlib

/-!
Verification of the mORMot authenticated HTTP client
(`src/python/crud_example/mormort_http_client.py`).

The development shallowly embeds the client: machine integers are `Nat`
with explicit `% 2 ^ 32` where wrap-around matters, byte strings are
`List Nat` of UTF-8 byte values, and the external `requests` transport is
an oracle function supplied as an argument. The `Session` class and the
`to_hex8_str` helper are imported by the client from modules that are not
among the sources; they are modelled from the specification and marked as
such in their doc comments.
-/

namespace MormotClient

/- ### Hexadecimal encoding -/

/-- Uppercase hexadecimal digit for a value below 16. -/
def hexDigitU (d : Nat) : Char :=
  if d < 10 then Char.ofNat (48 + d) else Char.ofNat (55 + d)

/-- Lowercase hexadecimal digit for a value below 16, as produced by
`hashlib.sha256(...).hexdigest()`. -/
def hexDigitL (d : Nat) : Char :=
  if d < 10 then Char.ofNat (48 + d) else Char.ofNat (87 + d)

/-- Numeric value of a hexadecimal digit character. -/
def hexVal (c : Char) : Nat :=
  if 65 ≤ c.toNat then c.toNat - 55 else c.toNat - 48

/-- Modelled from the spec: `to_hex8_str` lives in the module `utils_duh`,
which is not among the sources. Spec section 4.1: it encodes a 32-bit
unsigned value as exactly 8 hexadecimal characters, uppercase, left-padded
with the zero digit, total over the full 32-bit domain. Values beyond 32
bits contribute only their low 32 bits. -/
def to_hex8_str (v : Nat) : String :=
  String.mk [hexDigitU (v / 268435456 % 16), hexDigitU (v / 16777216 % 16),
             hexDigitU (v / 1048576 % 16), hexDigitU (v / 65536 % 16),
             hexDigitU (v / 4096 % 16), hexDigitU (v / 256 % 16),
             hexDigitU (v / 16 % 16), hexDigitU (v % 16)]

/-- Decoder used to show `to_hex8_str` is injective below `2 ^ 32`. -/
def decodeHex8 (s : String) : Nat :=
  s.data.foldl (fun a c => a * 16 + hexVal c) 0

/- ### UTF-8 bytes of a string (model of Python `str.encode()`) -/

/-- UTF-8 byte sequence of a single code point. -/
def utf8Bytes (c : Char) : List Nat :=
  let n := c.toNat
  if n < 128 then [n]
  else if n < 2048 then [192 + n / 64, 128 + n % 64]
  else if n < 65536 then [224 + n / 4096, 128 + n / 64 % 64, 128 + n % 64]
  else [240 + n / 262144, 128 + n / 4096 % 64, 128 + n / 64 % 64, 128 + n % 64]

/-- UTF-8 bytes of a string, the model of Python `s.encode()`. -/
def strBytes (s : String) : List Nat :=
  s.data.flatMap utf8Bytes

/-- Model of Python `str.upper()` restricted to what the client feeds it
(ASCII hexadecimal text). -/
def str_upper (s : String) : String :=
  String.mk (s.data.map Char.toUpper)

/- ### CRC-32 (model of `binascii.crc32(data, value)`) -/

/-- One bit step of the reflected CRC-32 algorithm with the standard
polynomial 0xEDB88320. -/
def crc32Bit (c : Nat) : Nat :=
  if c % 2 = 1 then (c / 2) ^^^ 3988292384 else c / 2

/-- Fold one byte into the running CRC register. -/
def crc32Byte (c b : Nat) : Nat :=
  crc32Bit (crc32Bit (crc32Bit (crc32Bit
    (crc32Bit (crc32Bit (crc32Bit (crc32Bit (c ^^^ b % 256))))))))

/-- Model of `binascii.crc32(data, value)`: the standard CRC-32 checksum
of `data` continuing from running value `value` (pre- and
post-complemented register, low 32 bits of the seed). -/
def crc32 (data : List Nat) (value : Nat) : Nat :=
  (data.foldl crc32Byte ((value % 4294967296) ^^^ 4294967295)) ^^^ 4294967295

namespace ChecksumChain

/-- Chained keyed checksum over a sequence of byte segments, spec section
4.4: the first segment is checksummed with `seed` as the initial register
value and each later segment starts from the previous result. This is the
iterated `binascii.crc32` pattern of lines 100-101 of the client. -/
def chain (seed : Nat) (segments : List (List Nat)) : Nat :=
  segments.foldl (fun c seg => crc32 seg c) seed

end ChecksumChain

/- ### SHA-256 (model of `hashlib.sha256`) -/

/-- Low 32 bits of a natural number. -/
def w32 (n : Nat) : Nat := n % 4294967296

/-- Rotate a 32-bit value right by `n` bits. -/
def rotr32 (n x : Nat) : Nat :=
  w32 ((x >>> n) ||| (x <<< (32 - n)))

/-- The 64 SHA-256 round constants. -/
def shaK : List Nat :=
  [1116352408, 1899447441, 3049323471, 3921009573, 961987163, 1508970993,
   2453635748, 2870763221, 3624381080, 310598401, 607225278, 1426881987,
   1925078388, 2162078206, 2614888103, 3248222580, 3835390401, 4022224774,
   264347078, 604807628, 770255983, 1249150122, 1555081692, 1996064986,
   2554220882, 2821834349, 2952996808, 3210313671, 3336571891, 3584528711,
   113926993, 338241895, 666307205, 773529912, 1294757372, 1396182291,
   1695183700, 1986661051, 2177026350, 2456956037, 2730485921, 2820302411,
   3259730800, 3345764771, 3516065817, 3600352804, 4094571909, 275423344,
   430227734, 506948616, 659060556, 883997877, 958139571, 1322822218,
   1537002063, 1747873779, 1955562222, 2024104815, 2227730452, 2361852424,
   2428436474, 2756734187, 3204031479, 3329325298]

/-- The SHA-256 initial hash state. -/
def shaH0 : List Nat :=
  [1779033703, 3144134277, 1013904242, 2773480762,
   1359893119, 2600822924, 528734635, 1541459225]

/-- Big-endian 8-byte encoding of a length in bits. -/
def be64 (n : Nat) : List Nat :=
  [n / 72057594037927936 % 256, n / 281474976710656 % 256,
   n / 1099511627776 % 256, n / 4294967296 % 256,
   n / 16777216 % 256, n / 65536 % 256, n / 256 % 256, n % 256]

/-- SHA-256 message padding: a 0x80 byte, zeros up to 56 mod 64, then the
bit length, big-endian over 8 bytes. -/
def sha_pad (msg : List Nat) : List Nat :=
  msg ++ [128] ++ List.replicate ((119 - msg.length % 64) % 64) 0
      ++ be64 (8 * msg.length)

/-- Split a byte list into 64-byte blocks; fuel-driven so the kernel can
evaluate it on concrete inputs. -/
def chunks64Aux : Nat → List Nat → List (List Nat)
  | 0, _ => []
  | _, [] => []
  | fuel + 1, l => l.take 64 :: chunks64Aux fuel (l.drop 64)

/-- Split a byte list into 64-byte blocks. -/
def chunks64 (l : List Nat) : List (List Nat) :=
  chunks64Aux (l.length + 1) l

/-- Big-endian 32-bit word `i` of a 64-byte block. -/
def be32at (block : List Nat) (i : Nat) : Nat :=
  block.getD (4 * i) 0 * 16777216 + block.getD (4 * i + 1) 0 * 65536 +
    block.getD (4 * i + 2) 0 * 256 + block.getD (4 * i + 3) 0

/-- Message schedule: the 64 expanded words of one block. -/
def schedule (block : List Nat) : List Nat :=
  (List.range 48).foldl
    (fun w t =>
      let i := t + 16
      let x15 := w.getD (i - 15) 0
      let x2 := w.getD (i - 2) 0
      let s0 := (rotr32 7 x15) ^^^ (rotr32 18 x15) ^^^ (x15 >>> 3)
      let s1 := (rotr32 17 x2) ^^^ (rotr32 19 x2) ^^^ (x2 >>> 10)
      w ++ [w32 (w.getD (i - 16) 0 + s0 + w.getD (i - 7) 0 + s1)])
    ((List.range 16).map (be32at block))

/-- One SHA-256 compression round on the eight-word working state. -/
def shaRound (k wt : Nat) (st : List Nat) : List Nat :=
  match st with
  | [a, b, c, d, e, f, g, h] =>
    let s1 := (rotr32 6 e) ^^^ (rotr32 11 e) ^^^ (rotr32 25 e)
    let ch := (e &&& f) ^^^ ((e ^^^ 4294967295) &&& g)
    let temp1 := w32 (h + s1 + ch + k + wt)
    let s0 := (rotr32 2 a) ^^^ (rotr32 13 a) ^^^ (rotr32 22 a)
    let maj := (a &&& b) ^^^ (a &&& c) ^^^ (b &&& c)
    let temp2 := w32 (s0 + maj)
    [w32 (temp1 + temp2), a, b, c, w32 (d + temp1), e, f, g]
  | other => other

/-- Compress one 64-byte block into the running hash state. -/
def compressBlock (h : List Nat) (block : List Nat) : List Nat :=
  let w := schedule block
  let st := (List.range 64).foldl
    (fun st t => shaRound (shaK.getD t 0) (w.getD t 0) st) h
  List.zipWith (fun x y => w32 (x + y)) h st

/-- SHA-256 digest of a byte sequence, as 32 bytes. -/
def sha256 (msg : List Nat) : List Nat :=
  ((chunks64 (sha_pad msg)).foldl compressBlock shaH0).flatMap
    (fun h => [h / 16777216 % 256, h / 65536 % 256, h / 256 % 256, h % 256])

/-- Lowercase hexadecimal rendering of a byte sequence, the model of
`hexdigest()`. -/
def hexdigest (bs : List Nat) : String :=
  String.mk (bs.flatMap (fun b => [hexDigitL (b / 16 % 16), hexDigitL (b % 16)]))

/-- Uppercase hexadecimal rendering of a byte sequence; used to state the
specification side of the login-hash claim. -/
def upperHexOfBytes (bs : List Nat) : String :=
  String.mk (bs.flatMap (fun b => [hexDigitU (b / 16 % 16), hexDigitU (b % 16)]))

/- ### URL query encoding (model of `urllib.parse.urlencode`) -/

/-- Percent-encode one byte, uppercase hex as Python quoting produces. -/
def percentByte (b : Nat) : List Char :=
  [Char.ofNat 37, hexDigitU (b / 16 % 16), hexDigitU (b % 16)]

/-- Model of `urllib.parse.quote_plus`: ASCII letters, digits and the four
characters underscore, dot, dash and tilde pass through, a space becomes a
plus sign, everything else is percent-encoded byte by byte over UTF-8. -/
def quote_plus (s : String) : String :=
  String.mk (s.data.flatMap (fun c =>
    if c.toNat = 32 then [Char.ofNat 43]
    else if c.isAlphanum || c.toNat = 95 || c.toNat = 46 || c.toNat = 45
        || c.toNat = 126 then [c]
    else (utf8Bytes c).flatMap percentByte))

/-- Model of `urllib.parse.urlencode` over an insertion-ordered mapping:
each pair becomes `key=value` after quoting, pairs joined with ampersands. -/
def urlencode (ps : List (String × String)) : String :=
  String.intercalate (String.mk [Char.ofNat 38])
    (ps.map (fun kv => quote_plus kv.1 ++ "=" ++ quote_plus kv.2))

/- ### Insertion-ordered string mapping (model of a Python `dict`) -/

/-- Model of `d[k] = v` on a Python dict (keys are unique, insertion
order is kept): an existing key keeps its position and gets the new
value, a new key is appended at the end. -/
def dictInsert : List (String × String) → String → String →
    List (String × String)
  | [], k, v => [(k, v)]
  | p :: rest, k, v =>
    if p.1 = k then (k, v) :: rest else p :: dictInsert rest k v

/-- Model of `d.get(k)` on a Python dict. -/
def dictGet : List (String × String) → String → Option String
  | [], _ => none
  | p :: rest, k => if p.1 = k then some p.2 else dictGet rest k

/- ### Session (modelled from the spec) -/

/-- Modelled from the spec: the `Session` class lives in the module
`session`, which is not among the sources. Spec sections 3 and 4.5: it
holds the server-assigned identifier rendered for signing (`id_hex`), the
secret seed — the same hashed-password value submitted at login, immutable
after creation (`private_salt_hash`) — and the clock source read on every
signing call (`tick_count`, the model of `get_tick_count`). -/
structure Session where
  id_hex : String
  private_salt_hash : String
  tick_count : Nat
deriving DecidableEq, Repr

/-- Modelled from the spec: reading the session clock source, spec
section 4.5 (`currentTickWindow`). -/
def get_tick_count (s : Session) : Nat := s.tick_count

/- ### The authenticated HTTP client -/

/-- State of `AutheticatedHTTPClient`: the fields set by `__init__` plus
the current session, `none` when no session is logged in. -/
structure Client where
  host : String
  port : String
  root : String
  base_url : String
  session : Option Session
deriving DecidableEq, Repr

/-- Model of `AutheticatedHTTPClient.__init__`. -/
def Client.init (host port root : String) : Client :=
  { host := host, port := port, root := root,
    base_url := "http://" ++ host ++ ":" ++ port, session := none }

/-- Result of one transport call, after JSON processing: the HTTP status
code and the `result` field of the JSON body when the body parses and has
one (`none` models a malformed body or a missing field). -/
structure HttpResponse where
  status_code : Nat
  jsonResult : Option String
deriving DecidableEq, Repr

/-- Outcome of one `requests.get` transport call: `Except.error` models a
transport-level failure (connection refused, timeout, DNS failure). -/
abbrev Transport := String → Except Unit HttpResponse

/-- Errors a login call can raise: a transport-level failure, or a
successful response whose body lacks the expected JSON `result` field. -/
inductive LoginErr where
  | network
  | protocol
deriving DecidableEq, Repr

/-- URL of the nonce-challenge endpoint, line 38 of the client. -/
def nonce_url (c : Client) (user : String) : String :=
  c.base_url ++ "/" ++ c.root ++ "/Auth?Username=" ++ user

/-- Model of `__get_server_nonce__` (lines 37-39): a transport failure
propagates, a body without a usable `result` field raises, otherwise the
server nonce is returned. -/
def get_server_nonce (http : Transport) (c : Client) (user : String) :
    Except LoginErr String :=
  match http (nonce_url c user) with
  | Except.error _ => Except.error LoginErr.network
  | Except.ok r =>
    match r.jsonResult with
    | none => Except.error LoginErr.protocol
    | some n => Except.ok n

/-- The login hash of lines 60-68: the five strings joined in order,
UTF-8 encoded, SHA-256 hashed, hex digest, uppercased. -/
def login_hash (root server_nonce client_nonce user password_hash : String) :
    String :=
  str_upper (hexdigest (sha256 (strBytes
    (String.join [root, server_nonce, client_nonce, user, password_hash]))))

/-- URL of the handshake-response endpoint, lines 70-71. -/
def auth_url (c : Client) (user sha256password client_nonce : String) :
    String :=
  c.base_url ++ "/" ++ c.root ++ "/Auth?Username=" ++ user ++ "&Password="
    ++ sha256password ++ "&ClientNonce=" ++ client_nonce

/-- Model of `login` (lines 45-77). The transport is the oracle `http`,
the generated client nonce and the clock reading at session construction
are the oracles `client_nonce` and `tick0`. On a 200 response carrying a
`result` field the new session is stored and returned; on any other
status the client state is returned untouched with no session; raised
exceptions surface as `Except.error`. -/
def login (http : Transport) (client_nonce : String) (tick0 : Nat)
    (c : Client) (user password_hash : String) :
    Except LoginErr (Option Session × Client) :=
  match get_server_nonce http c user with
  | Except.error e => Except.error e
  | Except.ok server_nonce =>
    let sha256password :=
      login_hash c.root server_nonce client_nonce user password_hash
    match http (auth_url c user sha256password client_nonce) with
    | Except.error _ => Except.error LoginErr.network
    | Except.ok resp =>
      if resp.status_code = 200 then
        match resp.jsonResult with
        | none => Except.error LoginErr.protocol
        | some result =>
          let s : Session :=
            { id_hex := result, private_salt_hash := password_hash,
              tick_count := tick0 }
          Except.ok (some s, { c with session := some s })
      else Except.ok (none, c)

/- ### Request signing -/

/-- The unsigned canonical path of lines 93-96: root joined to the method
with a slash; when the parameter mapping is non-empty the method is first
joined to the encoded parameters with a question mark. -/
def url_without_signature (root method : String)
    (parameters : List (String × String)) : String :=
  String.intercalate "/" [root,
    if parameters.isEmpty then method
    else String.intercalate "?" [method, urlencode parameters]]

/-- The window nonce of line 98: the clock reading shifted right 8 bits,
rendered as 8 uppercase hex characters. -/
def nonce8 (s : Session) : String :=
  to_hex8_str (get_tick_count s >>> 8)

/-- The chained checksum of lines 100-101. The conversion of the stored
hashed password to the 32-bit register seed happens inside the absent
`Session` class, so it stays an explicit parameter `hashSeed`; every
theorem below holds for all such conversions. -/
def signature_crc (hashSeed : String → Nat) (root method : String)
    (s : Session) (parameters : List (String × String)) : Nat :=
  crc32 (strBytes (url_without_signature root method parameters))
    (crc32 (strBytes (nonce8 s)) (hashSeed s.private_salt_hash))

/-- The signature value of lines 103-106: session id hex, window nonce
and checksum hex, joined with nothing in between. -/
def session_signature (hashSeed : String → Nat) (root method : String)
    (s : Session) (parameters : List (String × String)) : String :=
  String.join [s.id_hex, nonce8 s,
    to_hex8_str (signature_crc hashSeed root method s parameters)]

/-- Model of `add_session_signature` (lines 79-111): computes the
checksum over the unsigned path, stores the signature into the
caller-supplied mapping, and returns the re-serialized path together with
the mutated mapping. -/
def add_session_signature (hashSeed : String → Nat) (root : String)
    (s : Session) (method : String) (parameters : List (String × String)) :
    String × List (String × String) :=
  let ps2 := dictInsert parameters "session_signature"
    (session_signature hashSeed root method s parameters)
  (String.intercalate "/" [root,
     String.intercalate "?" [method, urlencode ps2]], ps2)

/- ### Specification-side definitions for the refinement claims -/

/-- The spec wording of the login hash, section 4.3: the five strings are
concatenated in that exact order with no delimiters into a UTF-8 byte
sequence, SHA-256 is applied, and the digest is rendered as uppercase
hexadecimal. -/
def login_hash_spec (root server_nonce client_nonce user password_hash :
    String) : String :=
  upperHexOfBytes (sha256 (strBytes
    (root ++ server_nonce ++ client_nonce ++ user ++ password_hash)))

/-- The spec wording of the unsigned canonical path, section 4.7 step 1:
`root + slash + method` when the parameters are empty, else the same with
a question mark and the encoded parameters appended. -/
def canonical_path_spec (root method : String)
    (parameters : List (String × String)) : String :=
  if parameters = [] then root ++ "/" ++ method
  else root ++ "/" ++ method ++ "?" ++ urlencode parameters

/- ### Shared lemmas -/

theorem hexVal_hexDigitU : ∀ d, d < 16 → hexVal (hexDigitU d) = d := by
  decide

theorem toUpper_hexDigitL : ∀ d, d < 16 →
    Char.toUpper (hexDigitL d) = hexDigitU d := by
  decide

theorem mod16_lt (x : Nat) : x % 16 < 16 := Nat.mod_lt _ (by norm_num)

theorem decode_to_hex8 (v : Nat) (h : v < 4294967296) :
    decodeHex8 (to_hex8_str v) = v := by
  simp only [decodeHex8, to_hex8_str, List.foldl]
  rw [hexVal_hexDigitU _ (mod16_lt _), hexVal_hexDigitU _ (mod16_lt _),
      hexVal_hexDigitU _ (mod16_lt _), hexVal_hexDigitU _ (mod16_lt _),
      hexVal_hexDigitU _ (mod16_lt _), hexVal_hexDigitU _ (mod16_lt _),
      hexVal_hexDigitU _ (mod16_lt _), hexVal_hexDigitU _ (mod16_lt _)]
  omega

theorem to_hex8_inj (a b : Nat) (ha : a < 4294967296) (hb : b < 4294967296)
    (h : to_hex8_str a = to_hex8_str b) : a = b := by
  have e := congrArg decodeHex8 h
  rwa [decode_to_hex8 a ha, decode_to_hex8 b hb] at e

theorem to_hex8_length (v : Nat) : (to_hex8_str v).length = 8 := by
  simp [to_hex8_str, String.length]

theorem str_upper_hexdigest (bs : List Nat) :
    str_upper (hexdigest bs) = upperHexOfBytes bs := by
  unfold str_upper hexdigest upperHexOfBytes
  refine congrArg String.mk ?_
  show (bs.flatMap
      (fun b => [hexDigitL (b / 16 % 16), hexDigitL (b % 16)])).map
        Char.toUpper = _
  induction bs with
  | nil => rfl
  | cons b rest ih =>
    simp only [List.flatMap_cons, List.map_append, ih, List.map_cons,
      List.map_nil, toUpper_hexDigitL _ (mod16_lt _)]

theorem dictGet_insert_same (ps : List (String × String)) (k v : String) :
    dictGet (dictInsert ps k v) k = some v := by
  induction ps with
  | nil => simp [dictInsert, dictGet]
  | cons p rest ih =>
    by_cases hp : p.1 = k
    · simp [dictInsert, dictGet, hp]
    · simp [dictInsert, dictGet, hp, ih]

theorem dictGet_insert_other (ps : List (String × String)) (k v q : String)
    (hq : q ≠ k) : dictGet (dictInsert ps k v) q = dictGet ps q := by
  have hkq : k ≠ q := Ne.symm hq
  induction ps with
  | nil => simp [dictInsert, dictGet, hkq]
  | cons p rest ih =>
    by_cases hp : p.1 = k
    · simp [dictInsert, dictGet, hp, hkq]
    · by_cases hpq : p.1 = q
      · simp [dictInsert, dictGet, hp, hpq, hq]
      · simp [dictInsert, dictGet, hp, hpq, ih]

theorem login_of_responses (http : Transport) (cn : String) (t0 : Nat)
    (c : Client) (u ph : String) (st0 : Nat) (sn : String)
    (resp : HttpResponse)
    (hn : http (nonce_url c u) = Except.ok ⟨st0, some sn⟩)
    (ha : http (auth_url c u (login_hash c.root sn cn u ph) cn)
            = Except.ok resp) :
    login http cn t0 c u ph =
      if resp.status_code = 200 then
        match resp.jsonResult with
        | none => Except.error LoginErr.protocol
        | some r =>
          Except.ok (some ⟨r, ph, t0⟩, { c with session := some ⟨r, ph, t0⟩ })
      else Except.ok (none, c) := by
  unfold login get_server_nonce
  rw [hn]
  dsimp only
  rw [ha]

theorem auth_url_ne_nonce_url (c : Client) (u p n : String) :
    auth_url c u p n ≠ nonce_url c u := by
  intro e
  have h := congrArg String.length e
  have l1 : ("&Password=" : String).length = 10 := by decide
  have l2 : ("&ClientNonce=" : String).length = 13 := by decide
  simp only [auth_url, nonce_url, String.length_append, l1, l2] at h
  omega

set_option maxRecDepth 100000 in
/-- Sanity anchor for the SHA-256 model: the FIPS 180 test vector for the
three-byte message. -/
theorem sha256_abc_vector :
    hexdigest (sha256 (strBytes "abc")) =
      "ba7816bf8f01cfea414140de5dae2223b00361a396177a9cb410ff61f20015ad" := by
  decide

theorem intercalate_pair (sep a b : String) :
    String.intercalate sep [a, b] = a ++ sep ++ b := rfl

theorem login_ok_some_inv (http : Transport) (cn : String) (t0 : Nat)
    (c : Client) (u ph : String) (s : Session) (c2 : Client)
    (h : login http cn t0 c u ph = Except.ok (some s, c2)) :
    s.private_salt_hash = ph := by
  unfold login at h
  cases hn : get_server_nonce http c u with
  | error e => rw [hn] at h; exact absurd h (by simp)
  | ok sn =>
    rw [hn] at h
    dsimp only at h
    cases ha : http (auth_url c u (login_hash c.root sn cn u ph) cn) with
    | error e => rw [ha] at h; exact absurd h (by simp)
    | ok resp =>
      rw [ha] at h
      dsimp only at h
      by_cases h200 : resp.status_code = 200
      · rw [if_pos h200] at h
        cases hj : resp.jsonResult with
        | none => rw [hj] at h; exact absurd h (by simp)
        | some r =>
          rw [hj] at h
          dsimp only at h
          have he := (Except.ok.injEq _ _).mp h
          have hs : some (⟨r, ph, t0⟩ : Session) = some s :=
            congrArg Prod.fst he
          have hss : (⟨r, ph, t0⟩ : Session) = s := by injection hs
          rw [← hss]
      · rw [if_neg h200] at h
        have he := (Except.ok.injEq _ _).mp h
        have : (none : Option Session) = some s := congrArg Prod.fst he
        exact absurd this (by simp)

/- ### Concrete inputs used by witnesses and counterexamples -/

/-- A client as built by `__init__` for host localhost, port 888, root
root. -/
def demoClient : Client := Client.init "localhost" "888" "root"

/-- A session as produced by a successful login: id 7, stored hash PH,
clock reading 5. -/
def demoSession : Session := ⟨"7", "PH", 5⟩

/-- A previously established session held before a later login attempt. -/
def demoOldSession : Session := ⟨"9", "OLD", 3⟩

/-- The demo client after an earlier successful login. -/
def demoClientLogged : Client :=
  { demoClient with session := some demoOldSession }

/-- Transport oracle answering every request with status 200 and result
field 7. -/
def demoHttpOk : Transport := fun _ => Except.ok ⟨200, some "7"⟩

/-- Transport oracle for a network that is down: every call fails at the
transport level. -/
def demoHttpDown : Transport := fun _ => Except.error ()

/-- Transport oracle whose nonce challenge succeeds and whose handshake
response is a 200 with a body lacking the result field. -/
def demoHttp200NoResult : Transport := fun url =>
  if url = nonce_url demoClient "admin" then Except.ok ⟨200, some "NONCE"⟩
  else Except.ok ⟨200, none⟩

/-- Transport oracle whose nonce challenge succeeds and whose handshake
response is an HTTP 403 rejection. -/
def demoHttp403 : Transport := fun url =>
  if url = nonce_url demoClient "admin" then Except.ok ⟨200, some "NONCE"⟩
  else Except.ok ⟨403, some "x"⟩

/- ### The claims -/

/-- C1: for every root, serverNonce, clientNonce, user and passwordHash,
the login hash submitted as the Password credential (lines 60-68) equals
the uppercase hexadecimal SHA-256 digest of the UTF-8 byte concatenation
of the five strings in that exact order with no delimiters. -/
theorem login_hash_matches_spec (root sn cn u ph : String) :
    login_hash root sn cn u ph = login_hash_spec root sn cn u ph := by
  unfold login_hash login_hash_spec
  have hj : String.join [root, sn, cn, u, ph]
      = root ++ sn ++ cn ++ u ++ ph := rfl
  rw [hj, str_upper_hexdigest]

/-- C2: the session_signature value stored by signing equals the session
id hex followed by nonce8 followed by the 8-hex-character checksum, where
nonce8 renders the clock reading shifted right by 8 bits; hence the total
length is the length of the session id hex plus 16, with no separators. -/
theorem session_signature_structure (f : String → Nat) (root method : String)
    (s : Session) (ps : List (String × String)) :
    dictGet (add_session_signature f root s method ps).2 "session_signature"
        = some (s.id_hex ++ nonce8 s
            ++ to_hex8_str (signature_crc f root method s ps))
    ∧ nonce8 s = to_hex8_str (get_tick_count s >>> 8)
    ∧ (s.id_hex ++ nonce8 s
        ++ to_hex8_str (signature_crc f root method s ps)).length
          = s.id_hex.length + 16 := by
  refine ⟨?_, rfl, ?_⟩
  · show dictGet (dictInsert ps "session_signature"
      (session_signature f root method s ps)) "session_signature" = _
    rw [dictGet_insert_same]
    rfl
  · rw [String.length_append, String.length_append]
    have h1 : (nonce8 s).length = 8 := to_hex8_length _
    have h2 : (to_hex8_str (signature_crc f root method s ps)).length = 8 :=
      to_hex8_length _
    omega

set_option maxRecDepth 100000 in
/-- C3: for every 32-bit seed and byte strings a and b, the chained
checksum over the two segments equals `crc32 b (crc32 a seed)` with the
standard CRC-32 algorithm; anchored on the literal vector seed 0, a = AB,
b = CD, and on the standard CRC-32 check value for 123456789. -/
theorem chain_two_segments_eq_nested_crc32 :
    (∀ (seed : Nat) (a b : List Nat),
        ChecksumChain.chain seed [a, b] = crc32 b (crc32 a seed))
    ∧ ChecksumChain.chain 0 [strBytes "AB", strBytes "CD"] = 0xDB1720A5
    ∧ crc32 (strBytes "123456789") 0 = 0xCBF43926 :=
  ⟨fun _ _ _ => rfl, by decide, by decide⟩

/-- C4: every session produced by a successful login stores as its secret
seed the very passwordHash submitted at login, and for every request the
chained checksum starts from that session seed; so the chain seed of
every signed request equals the login passwordHash under the seed
conversion. -/
theorem chain_seed_is_login_password_hash (http : Transport) (cn : String)
    (t0 : Nat) (c : Client) (u ph : String) (s : Session) (c2 : Client)
    (h : login http cn t0 c u ph = Except.ok (some s, c2)) :
    s.private_salt_hash = ph
    ∧ ∀ (f : String → Nat) (method : String) (ps : List (String × String)),
        signature_crc f c2.root method s ps
          = ChecksumChain.chain (f ph)
              [strBytes (nonce8 s),
               strBytes (url_without_signature c2.root method ps)] := by
  have hsalt := login_ok_some_inv http cn t0 c u ph s c2 h
  refine ⟨hsalt, fun f method ps => ?_⟩
  unfold signature_crc ChecksumChain.chain
  rw [hsalt]
  rfl

/-- Witness for C4 at a concrete successful login. -/
theorem chain_seed_is_login_password_hash_witness :
    demoSession.private_salt_hash = "PH"
    ∧ signature_crc String.length "root" "m" demoSession []
        = ChecksumChain.chain (String.length "PH")
            [strBytes (nonce8 demoSession),
             strBytes (url_without_signature "root" "m" [])] := by
  have hlogin : login demoHttpOk "CN" 5 demoClient "admin" "PH"
      = Except.ok (some demoSession,
          { demoClient with session := some demoSession }) := by
    rw [login_of_responses demoHttpOk "CN" 5 demoClient "admin" "PH" 200 "7"
      ⟨200, some "7"⟩ rfl rfl]
    rfl
  have h := chain_seed_is_login_password_hash demoHttpOk "CN" 5 demoClient
    "admin" "PH" demoSession { demoClient with session := some demoSession }
    hlogin
  exact ⟨h.1, h.2 String.length "m" []⟩

/-- C5 counterexample: with the nonce challenge succeeding and a
handshake response of status 200 whose body lacks the result field, login
raises a protocol error instead of returning the absent session the
claim's otherwise-branch predicts. -/
theorem login_200_missing_result_raises :
    login demoHttp200NoResult "CN" 0 demoClient "admin" "PH"
      = Except.error LoginErr.protocol := by
  have hn : demoHttp200NoResult (nonce_url demoClient "admin")
      = Except.ok ⟨200, some "NONCE"⟩ := if_pos rfl
  have ha : demoHttp200NoResult (auth_url demoClient "admin"
      (login_hash demoClient.root "NONCE" "CN" "admin" "PH") "CN")
      = Except.ok ⟨200, none⟩ := if_neg (auth_url_ne_nonce_url _ _ _ _)
  rw [login_of_responses demoHttp200NoResult "CN" 0 demoClient "admin" "PH"
    200 "NONCE" ⟨200, none⟩ hn ha]
  rfl

/-- C5 as amended: when the handshake response arrives with status 200
and a result field, login stores and returns the new session built from
that result and the submitted passwordHash; when the status is not 200 it
returns the absent session without raising; a 200 response without a
usable result field raises a protocol error instead. -/
theorem login_outcome_by_status (http : Transport) (cn : String) (t0 : Nat)
    (c : Client) (u ph : String) (st0 : Nat) (sn : String)
    (resp : HttpResponse)
    (hn : http (nonce_url c u) = Except.ok ⟨st0, some sn⟩)
    (ha : http (auth_url c u (login_hash c.root sn cn u ph) cn)
            = Except.ok resp) :
    (resp.status_code = 200 → ∀ r, resp.jsonResult = some r →
        login http cn t0 c u ph
          = Except.ok (some ⟨r, ph, t0⟩,
              { c with session := some ⟨r, ph, t0⟩ }))
    ∧ (resp.status_code ≠ 200 →
        login http cn t0 c u ph = Except.ok (none, c))
    ∧ (resp.status_code = 200 → resp.jsonResult = none →
        login http cn t0 c u ph = Except.error LoginErr.protocol) := by
  rw [login_of_responses http cn t0 c u ph st0 sn resp hn ha]
  refine ⟨fun h200 r hr => ?_, fun h200 => ?_, fun h200 hj => ?_⟩
  · rw [if_pos h200, hr]
  · rw [if_neg h200]
  · rw [if_pos h200, hj]

/-- Witness for the amended C5 at a concrete 200 response. -/
theorem login_outcome_by_status_witness :
    login demoHttpOk "CN" 0 demoClient "admin" "PH"
      = Except.ok (some ⟨"7", "PH", 0⟩,
          { demoClient with session := some ⟨"7", "PH", 0⟩ }) :=
  (login_outcome_by_status demoHttpOk "CN" 0 demoClient "admin" "PH" 200 "7"
    ⟨200, some "7"⟩ rfl rfl).1 rfl "7" rfl

/-- C6: when the transport call for the initial server-nonce fetch itself
fails, the failure propagates out of login as a network error and is not
collapsed into the absent-session outcome. -/
theorem login_transport_failure_raises (http : Transport) (cn : String)
    (t0 : Nat) (c : Client) (u ph : String)
    (h : http (nonce_url c u) = Except.error ()) :
    login http cn t0 c u ph = Except.error LoginErr.network := by
  unfold login get_server_nonce
  rw [h]

/-- Witness for C6 with a transport that is down. -/
theorem login_transport_failure_witness :
    login demoHttpDown "CN" 0 demoClient "admin" "PH"
      = Except.error LoginErr.network :=
  login_transport_failure_raises demoHttpDown "CN" 0 demoClient "admin" "PH"
    rfl

/-- C7: the unsigned canonical path equals root/method when the
parameters are empty and root/method?urlencode(parameters) otherwise; the
question-mark segment is omitted exactly when no parameters are
present. -/
theorem unsigned_path_matches_spec (root method : String)
    (ps : List (String × String)) :
    url_without_signature root method ps
      = canonical_path_spec root method ps := by
  unfold url_without_signature canonical_path_spec
  cases ps with
  | nil => rfl
  | cons p rest => simp [intercalate_pair, String.append_assoc]

set_option maxRecDepth 100000 in
/-- C8 counterexample: when the caller-supplied mapping already contains
the session_signature key, its pre-existing value is overwritten, so not
every pre-existing key keeps its value as the claim states. -/
theorem sign_overwrites_existing_signature_key :
    dictGet (add_session_signature (fun _ => 0) "root" demoSession "m"
        [("session_signature", "X")]).2 "session_signature" ≠ some "X" := by
  decide

/-- C8 as amended: signing mutates the caller-supplied mapping by storing
the session_signature key (overwriting it when it pre-exists); every
pre-existing key other than session_signature keeps its value; and the
returned path re-serializes the mapping including the stored
signature. -/
theorem sign_mutation_frame (f : String → Nat) (root : String) (s : Session)
    (method : String) (ps : List (String × String)) :
    (add_session_signature f root s method ps).2
        = dictInsert ps "session_signature"
            (session_signature f root method s ps)
    ∧ dictGet (add_session_signature f root s method ps).2
        "session_signature" = some (session_signature f root method s ps)
    ∧ (∀ q, q ≠ "session_signature" →
        dictGet (add_session_signature f root s method ps).2 q = dictGet ps q)
    ∧ (add_session_signature f root s method ps).1
        = root ++ "/" ++ method ++ "?"
            ++ urlencode (add_session_signature f root s method ps).2 := by
  refine ⟨rfl, dictGet_insert_same _ _ _,
    fun q hq => dictGet_insert_other _ _ _ _ hq, ?_⟩
  show String.intercalate "/" [root, String.intercalate "?"
      [method, urlencode (dictInsert ps "session_signature"
        (session_signature f root method s ps))]]
    = root ++ "/" ++ method ++ "?" ++ urlencode (dictInsert ps
        "session_signature" (session_signature f root method s ps))
  simp [intercalate_pair, String.append_assoc]

/-- Witness for the amended C8: a pre-existing unrelated key keeps its
value. -/
theorem sign_mutation_frame_witness :
    dictGet (add_session_signature String.length "root" demoSession "m"
        [("a", "1")]).2 "a" = some "1" :=
  (sign_mutation_frame String.length "root" demoSession "m"
    [("a", "1")]).2.2.1 "a" (by decide)

/-- C9: two sign calls in the same tick window with sessions agreeing on
identity, seed and window produce identical results, and a strictly
larger tick window produces a different nonce8 component. -/
theorem signature_tick_window_behavior (f : String → Nat)
    (root method : String) (ps : List (String × String)) (s1 s2 : Session) :
    (s1.id_hex = s2.id_hex → s1.private_salt_hash = s2.private_salt_hash →
      get_tick_count s1 >>> 8 = get_tick_count s2 >>> 8 →
      add_session_signature f root s1 method ps
        = add_session_signature f root s2 method ps)
    ∧ (get_tick_count s1 < 4294967296 → get_tick_count s2 < 4294967296 →
      get_tick_count s1 >>> 8 < get_tick_count s2 >>> 8 →
      nonce8 s1 ≠ nonce8 s2) := by
  constructor
  · intro hid hsalt hw
    unfold add_session_signature session_signature signature_crc nonce8
    rw [hid, hsalt, hw]
  · intro h1 h2 hlt heq
    unfold nonce8 at heq
    have le1 : get_tick_count s1 >>> 8 ≤ get_tick_count s1 := by
      rw [Nat.shiftRight_eq_div_pow]; exact Nat.div_le_self _ _
    have le2 : get_tick_count s2 >>> 8 ≤ get_tick_count s2 := by
      rw [Nat.shiftRight_eq_div_pow]; exact Nat.div_le_self _ _
    exact absurd (to_hex8_inj _ _ (lt_of_le_of_lt le1 h1)
      (lt_of_le_of_lt le2 h2) heq) (Nat.ne_of_lt hlt)

/-- Witness for C9: ticks 256 and 300 share window 1 and give identical
results; ticks 0 and 256 are in windows 0 and 1 and give different window
nonces. -/
theorem signature_tick_window_behavior_witness :
    add_session_signature (fun _ => 0) "root" ⟨"A", "P", 256⟩ "m" []
        = add_session_signature (fun _ => 0) "root" ⟨"A", "P", 300⟩ "m" []
    ∧ nonce8 (⟨"A", "P", 0⟩ : Session) ≠ nonce8 (⟨"A", "P", 256⟩ : Session) :=
  ⟨(signature_tick_window_behavior (fun _ => 0) "root" "m" []
      ⟨"A", "P", 256⟩ ⟨"A", "P", 300⟩).1 rfl rfl (by decide),
   (signature_tick_window_behavior (fun _ => 0) "root" "m" []
      ⟨"A", "P", 0⟩ ⟨"A", "P", 256⟩).2 (by decide) (by decide) (by decide)⟩

/-- C10: when both transport calls succeed and the handshake response has
a status other than 200, login returns the untouched client state, so the
stored session field still holds whatever it held before the attempt. -/
theorem login_non_200_preserves_session (http : Transport) (cn : String)
    (t0 : Nat) (c : Client) (u ph : String) (st0 : Nat) (sn : String)
    (resp : HttpResponse)
    (hn : http (nonce_url c u) = Except.ok ⟨st0, some sn⟩)
    (ha : http (auth_url c u (login_hash c.root sn cn u ph) cn)
            = Except.ok resp)
    (h200 : resp.status_code ≠ 200) :
    login http cn t0 c u ph = Except.ok (none, c)
    ∧ ∀ o c2, login http cn t0 c u ph = Except.ok (o, c2) →
        c2.session = c.session := by
  have he : login http cn t0 c u ph = Except.ok (none, c) := by
    rw [login_of_responses http cn t0 c u ph st0 sn resp hn ha, if_neg h200]
  refine ⟨he, fun o c2 h2 => ?_⟩
  rw [he] at h2
  have hp := (Except.ok.injEq _ _).mp h2
  have hc : c = c2 := congrArg Prod.snd hp
  rw [← hc]

/-- Witness for C10: a 403 handshake leaves a previously established
session in place. -/
theorem login_non_200_preserves_session_witness :
    login demoHttp403 "CN" 0 demoClientLogged "admin" "PH"
      = Except.ok (none, demoClientLogged)
    ∧ demoClientLogged.session = some demoOldSession :=
  ⟨(login_non_200_preserves_session demoHttp403 "CN" 0 demoClientLogged
      "admin" "PH" 200 "NONCE" ⟨403, some "x"⟩ (if_pos rfl)
      (if_neg (auth_url_ne_nonce_url demoClientLogged "admin" _ "CN"))
      (by decide)).1, rfl⟩

end MormotClient
